import Mathlib

/-!
Verification of the PDF merge-and-recompress pipeline.

Shallow embedding of the repository's core modules:
* src/lib/compress.ts   - sharp-backed compressPdf / reencodeImages
* src/unnamed/part_002  - Ghostscript-backed compressPdf (gsCompressPdf here)
* src/lib/merge.ts      - mergePdfs with a one-shot Ghostscript repair
* src/unnamed/part_003  - extractPdfsFromZip

External collaborators (the sharp image codec, Ghostscript subprocesses and
the pdf-lib parser) are not part of the repository; they enter the embedding
as explicit function parameters returning Option, where none models a thrown
exception.  Byte buffers are modelled as lists of bytes; only their contents
and lengths matter to the code under verification.
-/

/-- Contents of a Node Buffer / Uint8Array, as the list of its bytes. -/
abbrev ByteSeq := List Nat

/-! ## src/lib/compress.ts, top-level ladder

The ladder of compressPdf (lines 5-34).  reencodeImages performs I/O through
sharp, so at this level it is an environment parameter
reenc : ByteSeq -> Nat -> Option ByteSeq (bytes, quality); none models a
throw that the surrounding try/catch logs and absorbs.  The byte budget
MAX_OUTPUT_SIZE comes from src/lib/constants.ts and is kept as the parameter
budget. -/

/-- QUALITY_PASSES of src/lib/compress.ts line 5. -/
def QUALITY_PASSES : List Nat := [80, 60, 40, 20]

/-- The for-loop of compressPdf (lines 12-26): try each quality against the
original input, return the first result within budget, absorb failures. -/
def compressLoop (reenc : ByteSeq → Nat → Option ByteSeq) (budget : Nat)
    (input : ByteSeq) : List Nat → Option ByteSeq
  | [] => none
  | q :: qs =>
    match reenc input q with
    | some c => if c.length ≤ budget then some c else compressLoop reenc budget input qs
    | none => compressLoop reenc budget input qs

/-- compressPdf of src/lib/compress.ts (lines 7-34): short-circuit when the
input is within budget, otherwise run the ladder; if no pass fits the budget
re-run the most aggressive quality on the original input, and fall back to
the input itself when that final pass throws. -/
def compressPdf (reenc : ByteSeq → Nat → Option ByteSeq) (budget : Nat)
    (input : ByteSeq) : ByteSeq :=
  if input.length ≤ budget then input
  else
    match compressLoop reenc budget input QUALITY_PASSES with
    | some c => c
    | none =>
      match reenc input (QUALITY_PASSES.getLastD 0) with
      | some r => r
      | none => input

/-! ## src/unnamed/part_002, Ghostscript-backed compressPdf

ghostscriptCompress shells out to Ghostscript, so it is the environment
parameter gs : resolution -> imageQuality -> bytes -> Option bytes; none
models a thrown/timed-out invocation, absorbed by the catch in the loop. -/

/-- GsPass of src/unnamed/part_002 lines 19-22. -/
structure GsPass where
  resolution : String
  imageQuality : Nat
deriving DecidableEq

/-- GS_PASSES of src/unnamed/part_002 lines 24-30. -/
def GS_PASSES : List GsPass :=
  [⟨"ebook", 80⟩, ⟨"ebook", 60⟩, ⟨"ebook", 40⟩, ⟨"screen", 40⟩, ⟨"screen", 20⟩]

/-- The for-loop of the Ghostscript compressPdf (part_002 lines 40-67): on a
successful pass within budget return; on a successful over-budget pass the
result replaces the working buffer (inputBuffer = result); on a failed pass
the working buffer is left unchanged. -/
def gsLoop (gs : String → Nat → ByteSeq → Option ByteSeq) (budget : Nat) :
    List GsPass → ByteSeq → ByteSeq
  | [], buf => buf
  | p :: ps, buf =>
    match gs p.resolution p.imageQuality buf with
    | some result =>
      if result.length ≤ budget then result else gsLoop gs budget ps result
    | none => gsLoop gs budget ps buf

/-- compressPdf of src/unnamed/part_002 (lines 32-72). -/
def gsCompressPdf (gs : String → Nat → ByteSeq → Option ByteSeq) (budget : Nat)
    (input : ByteSeq) : ByteSeq :=
  gsLoop gs budget GS_PASSES input

/-- Cumulative application of the whole ladder with no early exit: each
successful pass feeds the next, a failed pass leaves the buffer unchanged.
This names the "result of the last (most aggressive) tier" under the
chaining policy of part_002. -/
def gsChain (gs : String → Nat → ByteSeq → Option ByteSeq) :
    List GsPass → ByteSeq → ByteSeq
  | [], buf => buf
  | p :: ps, buf =>
    match gs p.resolution p.imageQuality buf with
    | some result => gsChain gs ps result
    | none => gsChain gs ps buf

/-! ## src/lib/merge.ts

PDFDocument.load either yields a document, whose pages (in the document's
own order) are copied into the accumulator, or throws: the environment is
parse : ByteSeq -> Option (List Nat), a page being an opaque Nat.  repairPdf
shells out to Ghostscript: repair : ByteSeq -> Option ByteSeq, where none
models a throw, which mergePdfs does not catch. -/

/-- The two ways mergePdfs can fail: the explicit zero-page throw of
merge.ts line 73, and an uncaught load/repair exception on the retry path
(lines 62-64). -/
inductive MergeError
  | noValidPages
  | parseFailure
deriving DecidableEq

/-- The per-blob body of the loop of mergePdfs (merge.ts lines 52-69),
instrumented with the number of repairPdf invocations it performs: parse;
on failure repair once and parse the repaired bytes; a second failure (or a
repair failure) is not caught.  Returns (pages copied if any, repair count). -/
def processBlob (parse : ByteSeq → Option (List Nat))
    (repair : ByteSeq → Option ByteSeq) (buf : ByteSeq) :
    Option (List Nat) × Nat :=
  match parse buf with
  | some pages => (some pages, 0)
  | none =>
    match repair buf with
    | none => (none, 1)
    | some repaired =>
      match parse repaired with
      | some pages => (some pages, 1)
      | none => (none, 1)

/-- The loop and final page-count check of mergePdfs (merge.ts lines 49-74):
zero-length blobs are skipped without parsing, a blob that fails even after
repair aborts the whole merge, and an empty accumulated page list becomes
the no-valid-pages error. -/
def mergeGo (parse : ByteSeq → Option (List Nat))
    (repair : ByteSeq → Option ByteSeq) :
    List ByteSeq → List Nat → Except MergeError (List Nat)
  | [], acc => if acc.isEmpty then .error .noValidPages else .ok acc
  | b :: bs, acc =>
    if b.length = 0 then mergeGo parse repair bs acc
    else
      match (processBlob parse repair b).1 with
      | none => .error .parseFailure
      | some pages => mergeGo parse repair bs (acc ++ pages)

/-- mergePdfs of src/lib/merge.ts (lines 46-78), returning the merged page
list (the saved document) or the failure. -/
def mergePdfs (parse : ByteSeq → Option (List Nat))
    (repair : ByteSeq → Option ByteSeq) (buffers : List ByteSeq) :
    Except MergeError (List Nat) :=
  mergeGo parse repair buffers []

/-! ## src/unnamed/part_003, extractPdfsFromZip

An AdmZip entry is its path inside the archive, a directory flag and its
bytes.  The JS string operations used by the filter and the name-stripping
(startsWith, toLowerCase().endsWith, split("/").pop() with the falsy-empty
fallback) are modelled character by character. -/

/-- A ZIP central-directory entry as exposed by adm-zip. -/
structure ZipEntry where
  entryName : String
  isDirectory : Bool
  data : ByteSeq
deriving DecidableEq

/-- The {name, buffer} records returned by extractPdfsFromZip. -/
structure ExtractedPdf where
  name : String
  buffer : ByteSeq
deriving DecidableEq

/-- JS String.startsWith on character lists. -/
def isPrefixB : List Char → List Char → Bool
  | [], _ => true
  | _ :: _, [] => false
  | a :: as, b :: bs => a = b && isPrefixB as bs

/-- JS String.endsWith on character lists. -/
def isSuffixB (p l : List Char) : Bool := isPrefixB p.reverse l.reverse

/-- JS String.includes (contiguous substring) on character lists. -/
def hasSub (pat : List Char) : List Char → Bool
  | [] => pat.isEmpty
  | c :: rest => isPrefixB pat (c :: rest) || hasSub pat rest

/-- The filter predicate of extractPdfsFromZip (part_003 lines 13-21): drop
directories, __MACOSX resource forks, hidden dot-entries and anything whose
name does not end in ".pdf" case-insensitively. -/
def keepEntry (e : ZipEntry) : Bool :=
  !e.isDirectory
    && !(isPrefixB "__MACOSX".toList e.entryName.toList)
    && !(isPrefixB ".".toList e.entryName.toList)
    && isSuffixB ".pdf".toList (e.entryName.toList.map Char.toLower)

/-- The characters after the last slash: entryName.split("/").pop(). -/
def lastSeg (l : List Char) : List Char :=
  (l.reverse.takeWhile (fun c => c ≠ '/')).reverse

/-- entry.entryName.split("/").pop() || entry.entryName (part_003 line 24):
the final path segment, or the whole name when that segment is the falsy
empty string. -/
def entryOutName (s : String) : String :=
  let seg := lastSeg s.toList
  if seg.isEmpty then s else String.mk seg

/-- Sort key modelling localeCompare(undefined, {numeric: true}): the
lowercased name tokenized so that maximal digit runs compare by numeric
value (before any letter) and other characters compare by code point. -/
def numTok (n : Nat) : Lex (Nat × Nat) := toLex (0, n)

/-- A non-digit character as a sort token (code points start above 0, after
every numeric token's first component). -/
def charTok (c : Char) : Lex (Nat × Nat) := toLex (c.toNat, 0)

/-- Tokenizer for the numeric-aware key; the second argument carries the
value of the digit run being scanned. -/
def tokAux : List Char → Option Nat → List (Lex (Nat × Nat))
  | [], none => []
  | [], some n => [numTok n]
  | c :: cs, none =>
    if c.isDigit then tokAux cs (some (c.toNat - 48))
    else charTok c :: tokAux cs none
  | c :: cs, some n =>
    if c.isDigit then tokAux cs (some (10 * n + (c.toNat - 48)))
    else numTok n :: charTok c :: tokAux cs none

/-- The case-insensitive numeric-aware key a name is ordered by. -/
def natKey (s : String) : List (Lex (Nat × Nat)) :=
  tokAux (s.toList.map Char.toLower) none

/-- The comparator of part_003 line 27 as a relation: a precedes b when
a.name.localeCompare(b.name, undefined, {numeric: true}) <= 0. -/
abbrev extLe (a b : ExtractedPdf) : Prop := natKey a.name ≤ natKey b.name

/-- extractPdfsFromZip of src/unnamed/part_003 (lines 8-28): filter the
archive entries, strip directory components from the surviving names, and
stable-sort by the numeric-aware case-insensitive comparator (JS
Array.prototype.sort is a stable comparison sort; insertion sort realizes
the same specification). -/
def extractPdfsFromZip (entries : List ZipEntry) : List ExtractedPdf :=
  List.insertionSort extLe
    ((entries.filter keepEntry).map
      (fun e => ⟨entryOutName e.entryName, e.data⟩))

/-! ## src/lib/compress.ts, reencodeImages (lines 36-130)

The object registry is a list of indirect objects; non-stream objects are
skipped by the walk.  A stream's dictionary entries relevant to the walk are
carried as fields; decoded is the outcome getDecodedData would produce
(none models a throw or a null result, both of which skip the image).  The
sharp invocations are the environment parameters
jpegEnc bytes quality (the DCTDecode branch, lines 78-80) and
rawEnc pixels width height channels quality (the raw branch, lines 108-112),
none modelling a thrown error absorbed by the catch at line 122. -/

/-- An image/XObject stream with the dictionary entries reencodeImages
reads.  Option models an absent key (or, for width/height/bpc, a value
getNumericValue turns into its numeric reading). -/
structure PdfStream where
  subtype : Option String
  width : Option Nat
  height : Option Nat
  filter : Option String
  bpc : Option Nat
  colorSpace : Option String
  hasDecodeParms : Bool
  data : ByteSeq
  decoded : Option ByteSeq
deriving DecidableEq

/-- An entry of doc.context.registry: a stream, or any other object (which
line 53 skips). -/
inductive PdfObject
  | stream (s : PdfStream)
  | nonStream
deriving DecidableEq

/-- Channel count inferred from the color space (lines 96-103). -/
def channelsOf (colorSpace : String) : Nat :=
  if hasSub "Gray".toList colorSpace.toList then 1
  else if hasSub "CMYK".toList colorSpace.toList then 4
  else 3

/-- The loop body of reencodeImages for one stream (lines 52-126): skip
non-images and degenerate dimensions; re-encode DCT images in place only
when strictly smaller than the stored bytes; convert raw images to DCT only
when 8 bits per component, the declared geometry is consistent with the
decoded payload, and the encoding is strictly smaller than the decoded
bytes; any codec failure leaves the stream untouched. -/
def processStream (jpegEnc : ByteSeq → Nat → Option ByteSeq)
    (rawEnc : ByteSeq → Nat → Nat → Nat → Nat → Option ByteSeq)
    (quality : Nat) (s : PdfStream) : PdfStream :=
  match s.subtype with
  | none => s
  | some st =>
    if st ≠ "Image" then s
    else
      match s.width, s.height with
      | some w, some h =>
        if w < 2 ∨ h < 2 then s
        else
          let filterName := (s.filter).getD ""
          if hasSub "DCTDecode".toList filterName.toList then
            match jpegEnc s.data quality with
            | none => s
            | some c => if c.length < s.data.length then { s with data := c } else s
          else
            match s.decoded with
            | none => s
            | some d =>
              if d.length = 0 then s
              else if (s.bpc).getD 8 ≠ 8 then s
              else
                let channels := channelsOf ((s.colorSpace).getD "")
                if d.length < w * h * channels then s
                else
                  match rawEnc d w h channels quality with
                  | none => s
                  | some c =>
                    if c.length < d.length then
                      { s with data := c, filter := some "DCTDecode",
                               hasDecodeParms := false }
                    else s
      | _, _ => s

/-- The registry walk applied to one registry object (line 53 skips
non-streams). -/
def processObj (jpegEnc : ByteSeq → Nat → Option ByteSeq)
    (rawEnc : ByteSeq → Nat → Nat → Nat → Nat → Option ByteSeq)
    (quality : Nat) : PdfObject → PdfObject
  | .stream s => .stream (processStream jpegEnc rawEnc quality s)
  | .nonStream => .nonStream

/-- reencodeImages of src/lib/compress.ts at registry granularity: every
object of the registry is visited in turn, mutated in place per
processStream, and the document is saved. -/
def reencodeImages (jpegEnc : ByteSeq → Nat → Option ByteSeq)
    (rawEnc : ByteSeq → Nat → Nat → Nat → Nat → Option ByteSeq)
    (quality : Nat) (doc : List PdfObject) : List PdfObject :=
  doc.map (processObj jpegEnc rawEnc quality)

/-! ## Concrete instantiations used by witnesses and counterexamples -/

/-- A Ghostscript stub whose every pass returns the single byte 9. -/
def c1Gs : String → Nat → ByteSeq → Option ByteSeq := fun _ _ _ => some [9]

/-- A reencodeImages stub: quality 80 yields 20 bytes, quality 20 yields 30
bytes, any other quality 25 bytes, regardless of input. -/
def c7Reenc : ByteSeq → Nat → Option ByteSeq := fun _ q =>
  if q = 80 then some (List.replicate 20 0)
  else if q = 20 then some (List.replicate 30 0)
  else some (List.replicate 25 0)

/-- An 11-byte input, over a budget of 10. -/
def exInput11 : ByteSeq := List.replicate 11 0

/-- A reencodeImages stub whose output at quality q has q + 11 bytes. -/
def c6Reenc : ByteSeq → Nat → Option ByteSeq := fun _ q =>
  some (List.replicate (q + 11) 0)

/-- A Ghostscript stub always producing a fixed 11-byte result. -/
def c6Gs : String → Nat → ByteSeq → Option ByteSeq := fun _ _ _ =>
  some (List.replicate 11 0)

/-- A Ghostscript stub that prepends one byte on every pass. -/
def c10Gs : String → Nat → ByteSeq → Option ByteSeq := fun _ _ b => some (0 :: b)

/-- Archive entries exercising the filter rules of extractPdfsFromZip. -/
def c4Entries : List ZipEntry :=
  [⟨"docs/Nested.PDF", false, [4]⟩, ⟨"__MACOSX/._a.pdf", false, [9]⟩,
   ⟨"dir/", true, []⟩, ⟨".hidden.pdf", false, [5]⟩, ⟨"notes.txt", false, [3]⟩]

/-- The archive members of the numeric-sort example. -/
def c5Entries : List ZipEntry :=
  [⟨"page2.pdf", false, [2]⟩, ⟨"page10.pdf", false, [10]⟩, ⟨"page1.pdf", false, [1]⟩]

/-- A DCT-encoded image stream with three stored bytes. -/
def imgStreamEx : PdfStream :=
  ⟨some "Image", some 4, some 4, some "DCTDecode", some 8, some "DeviceRGB",
    true, [1, 2, 3], none⟩

/-- The comparator of extractPdfsFromZip is total. -/
instance : IsTotal ExtractedPdf extLe :=
  ⟨fun a b => le_total (natKey a.name) (natKey b.name)⟩

/-- The comparator of extractPdfsFromZip is transitive. -/
instance : IsTrans ExtractedPdf extLe := ⟨fun _ _ _ h1 h2 => le_trans h1 h2⟩

/-! ## Auxiliary lemmas -/

/-- A merge that returns a document returns at least one page. -/
theorem mergeGo_ok_ne_nil (parse : ByteSeq → Option (List Nat))
    (repair : ByteSeq → Option ByteSeq) :
    ∀ (bs : List ByteSeq) (acc r : List Nat),
      mergeGo parse repair bs acc = .ok r → r ≠ [] := by
  intro bs
  induction bs with
  | nil =>
    intro acc r h
    simp only [mergeGo] at h
    split at h
    · cases h
    · rename_i hacc
      cases h
      simpa [List.isEmpty_iff] using hacc
  | cons b bs ih =>
    intro acc r h
    simp only [mergeGo] at h
    split at h
    · exact ih _ _ h
    · split at h
      · cases h
      · exact ih _ _ h

/-- A member blob that yields no pages even through the repair path makes
the whole merge fail. -/
theorem mergeGo_mem_bad_blob (parse : ByteSeq → Option (List Nat))
    (repair : ByteSeq → Option ByteSeq) (buf : ByteSeq)
    (h0 : buf.length ≠ 0) (hpb : (processBlob parse repair buf).1 = none) :
    ∀ (bs : List ByteSeq) (acc r : List Nat),
      buf ∈ bs → mergeGo parse repair bs acc ≠ .ok r := by
  intro bs
  induction bs with
  | nil => intro acc r hm; cases hm
  | cons b bs ih =>
    intro acc r hm h
    simp only [mergeGo] at h
    rcases List.mem_cons.mp hm with rfl | hm2
    · rw [if_neg h0, hpb] at h
      cases h
    · by_cases hb : b.length = 0
      · rw [if_pos hb] at h
        exact ih acc r hm2 h
      · rw [if_neg hb] at h
        cases hq : (processBlob parse repair b).1 with
        | none => rw [hq] at h; cases h
        | some pages => rw [hq] at h; exact ih _ r hm2 h

/-- All-empty inputs leave the accumulator untouched and end in the
no-valid-pages error. -/
theorem mergeGo_all_empty (parse : ByteSeq → Option (List Nat))
    (repair : ByteSeq → Option ByteSeq) :
    ∀ bs : List ByteSeq, (∀ b ∈ bs, b.length = 0) →
      mergeGo parse repair bs [] = .error .noValidPages := by
  intro bs
  induction bs with
  | nil => intro _; rfl
  | cons b bs ih =>
    intro hall
    simp only [mergeGo]
    rw [if_pos (hall b (List.mem_cons_self b bs))]
    exact ih fun x hx => hall x (List.mem_cons_of_mem _ hx)

/-- When every successful pass is over budget the ladder loop fails. -/
theorem compressLoop_none_of_miss (reenc : ByteSeq → Nat → Option ByteSeq)
    (budget : Nat) (input : ByteSeq) :
    ∀ qs : List Nat,
      (∀ q ∈ qs, ∀ c, reenc input q = some c → budget < c.length) →
      compressLoop reenc budget input qs = none := by
  intro qs
  induction qs with
  | nil => intro _; rfl
  | cons q qs ih =>
    intro hmiss
    simp only [compressLoop]
    cases hq : reenc input q with
    | none => exact ih fun q2 hq2 => hmiss q2 (List.mem_cons_of_mem _ hq2)
    | some c =>
      dsimp only
      rw [if_neg (Nat.not_le.mpr (hmiss q (List.mem_cons_self q qs) c hq))]
      exact ih fun q2 hq2 => hmiss q2 (List.mem_cons_of_mem _ hq2)

/-- When every successful pass is over budget, the Ghostscript loop never
exits early: it equals the cumulative chain of the whole ladder. -/
theorem gsLoop_eq_chain_of_miss (gs : String → Nat → ByteSeq → Option ByteSeq)
    (budget : Nat) :
    ∀ ps : List GsPass,
      (∀ p ∈ ps, ∀ b c, gs p.resolution p.imageQuality b = some c →
        budget < c.length) →
      ∀ buf, gsLoop gs budget ps buf = gsChain gs ps buf := by
  intro ps
  induction ps with
  | nil => intro _ buf; rfl
  | cons p ps ih =>
    intro hmiss buf
    simp only [gsLoop, gsChain]
    cases hq : gs p.resolution p.imageQuality buf with
    | none => exact ih (fun p2 h2 => hmiss p2 (List.mem_cons_of_mem _ h2)) buf
    | some result =>
      dsimp only
      rw [if_neg (Nat.not_le.mpr
        (hmiss p (List.mem_cons_self p ps) buf result hq))]
      exact ih (fun p2 h2 => hmiss p2 (List.mem_cons_of_mem _ h2)) result

/-! ## Claim theorems -/

/-- C1 (amended): the sharp-backed compressPdf of src/lib/compress.ts
returns any input whose length is at or below the budget unchanged,
performing no re-encoding. (As originally stated, over both compressPdf
implementations, the claim is refuted by c1_ghostscript_counterexample: the
Ghostscript-backed compressPdf of src/unnamed/part_002 always runs at least
one pass.) -/
theorem c1_short_circuit (reenc : ByteSeq → Nat → Option ByteSeq)
    (budget : Nat) (input : ByteSeq) (h : input.length ≤ budget) :
    compressPdf reenc budget input = input := by
  simp [compressPdf, h]

/-- C1 witness: a 3-byte input under a 5-byte budget is returned as is. -/
theorem c1_short_circuit_witness :
    ([1, 2, 3] : ByteSeq).length ≤ 5 ∧
      compressPdf (fun _ _ => none) 5 [1, 2, 3] = [1, 2, 3] :=
  ⟨by decide, c1_short_circuit (fun _ _ => none) 5 [1, 2, 3] (by decide)⟩

/-- C1 counterexample: for the Ghostscript-backed compressPdf
(src/unnamed/part_002), a 2-byte input below a 10-byte budget is re-encoded
by the first pass and the result is not identical to the input. -/
theorem c1_ghostscript_counterexample :
    ([1, 2] : ByteSeq).length ≤ 10 ∧ gsCompressPdf c1Gs 10 [1, 2] ≠ [1, 2] := by
  constructor
  · decide
  · decide

/-- C2: merging the empty list, or a list of only zero-length blobs, fails
with the no-valid-pages error; and in general a merge from which zero pages
result never returns a document. -/
theorem c2_zero_pages_error (parse : ByteSeq → Option (List Nat))
    (repair : ByteSeq → Option ByteSeq) (buffers : List ByteSeq)
    (h : ∀ b ∈ buffers, b.length = 0) :
    mergePdfs parse repair buffers = .error .noValidPages ∧
    ∀ (bs : List ByteSeq) (r : List Nat),
      mergePdfs parse repair bs = .ok r → r ≠ [] :=
  ⟨mergeGo_all_empty parse repair buffers h,
   fun bs r hok => mergeGo_ok_ne_nil parse repair bs [] r hok⟩

/-- C2 witness: two zero-length blobs yield the no-valid-pages error. -/
theorem c2_witness :
    mergePdfs (fun _ => none) (fun _ => some [7]) [[], []] =
      .error .noValidPages ∧
    ∀ (bs : List ByteSeq) (r : List Nat),
      mergePdfs (fun _ => none) (fun _ => some [7]) bs = .ok r → r ≠ [] :=
  c2_zero_pages_error (fun _ => none) (fun _ => some [7]) [[], []] (by decide)

/-- C3: a nonempty blob that fails to parse triggers exactly one repair
invocation; when the repaired bytes also fail to parse (or the repair
itself fails), the blob contributes no pages and any merge containing it
fails rather than skipping the blob. -/
theorem c3_repair_once_then_fatal (parse : ByteSeq → Option (List Nat))
    (repair : ByteSeq → Option ByteSeq) (buf : ByteSeq)
    (h0 : buf.length ≠ 0) (h1 : parse buf = none)
    (h2 : ∀ b, repair buf = some b → parse b = none) :
    (processBlob parse repair buf).2 = 1 ∧
    (processBlob parse repair buf).1 = none ∧
    ∀ buffers : List ByteSeq, buf ∈ buffers →
      ∀ r : List Nat, mergePdfs parse repair buffers ≠ .ok r := by
  have hpb : processBlob parse repair buf = (none, 1) := by
    unfold processBlob
    rw [h1]
    cases hr : repair buf with
    | none => rfl
    | some b2 => dsimp only; rw [h2 b2 hr]
  refine ⟨by rw [hpb], by rw [hpb], ?_⟩
  intro buffers hmem r
  exact mergeGo_mem_bad_blob parse repair buf h0 (by rw [hpb]) buffers [] r hmem

/-- C3 witness: a 1-byte blob that never parses, with a repair that
rewrites it to bytes that still never parse. -/
theorem c3_witness :
    (processBlob (fun _ => none) (fun _ => some [7]) [1]).2 = 1 ∧
    (processBlob (fun _ => none) (fun _ => some [7]) [1]).1 = none ∧
    ∀ buffers : List ByteSeq, [1] ∈ buffers →
      ∀ r : List Nat,
        mergePdfs (fun _ => none) (fun _ => some [7]) buffers ≠ .ok r :=
  c3_repair_once_then_fatal (fun _ => none) (fun _ => some [7]) [1]
    (by decide) rfl (fun b _ => rfl)

/-- C6: when the input exceeds the budget and every successful tier result
is still over budget, neither compressPdf fails: the sharp-backed one
returns the fresh quality-20 (most aggressive) result even though it is
over budget, and the Ghostscript-backed one returns the cumulative chain of
the whole ladder, whose last step is the most aggressive tier. -/
theorem c6_last_tier_on_budget_miss (reenc : ByteSeq → Nat → Option ByteSeq)
    (gs : String → Nat → ByteSeq → Option ByteSeq) (budget : Nat)
    (input r : ByteSeq)
    (hover : budget < input.length)
    (hmiss : ∀ q ∈ QUALITY_PASSES, ∀ c, reenc input q = some c →
      budget < c.length)
    (hlast : reenc input 20 = some r)
    (hgsmiss : ∀ p ∈ GS_PASSES, ∀ b c,
      gs p.resolution p.imageQuality b = some c → budget < c.length) :
    compressPdf reenc budget input = r ∧
    gsCompressPdf gs budget input = gsChain gs GS_PASSES input := by
  constructor
  · unfold compressPdf
    rw [if_neg (Nat.not_le.mpr hover),
      compressLoop_none_of_miss reenc budget input QUALITY_PASSES hmiss]
    dsimp only
    rw [show QUALITY_PASSES.getLastD 0 = 20 from rfl, hlast]
  · exact gsLoop_eq_chain_of_miss gs budget GS_PASSES hgsmiss input

/-- C6 witness: budget 10, 11-byte input, every pass over budget; the sharp
ladder returns the 31-byte quality-20 result and the Ghostscript ladder the
chained result. -/
theorem c6_witness :
    compressPdf c6Reenc 10 exInput11 = List.replicate 31 0 ∧
    gsCompressPdf c6Gs 10 exInput11 = gsChain c6Gs GS_PASSES exInput11 :=
  c6_last_tier_on_budget_miss c6Reenc c6Gs 10 exInput11 (List.replicate 31 0)
    (by decide)
    (by
      intro q _ c h
      simp only [c6Reenc, Option.some.injEq] at h
      subst h
      simp)
    rfl
    (by
      intro p _ b c h
      simp only [c6Gs, Option.some.injEq] at h
      subst h
      decide)

/-- C7 counterexample: with a codec whose quality-80 pass yields 20 bytes
and whose quality-20 pass yields 30 bytes (all passes over the 10-byte
budget), compressPdf returns the 30-byte quality-20 result, strictly larger
than the first (gentlest) tier's 20-byte output. -/
theorem c7_counterexample :
    c7Reenc exInput11 80 = some (List.replicate 20 0) ∧
    c7Reenc exInput11 60 = some (List.replicate 25 0) ∧
    c7Reenc exInput11 40 = some (List.replicate 25 0) ∧
    c7Reenc exInput11 20 = some (List.replicate 30 0) ∧
    10 < (List.replicate 20 0 : ByteSeq).length ∧
    10 < (List.replicate 25 0 : ByteSeq).length ∧
    10 < (List.replicate 30 0 : ByteSeq).length ∧
    10 < exInput11.length ∧
    compressPdf c7Reenc 10 exInput11 = List.replicate 30 0 ∧
    (List.replicate 20 0 : ByteSeq).length <
      (compressPdf c7Reenc 10 exInput11).length := by
  refine ⟨by decide, by decide, by decide, by decide, by decide, by decide,
    by decide, by decide, by decide, by decide⟩

/-- C7 (amended): when the input is over budget and every successful tier
result is over budget, compressPdf returns the quality-20 re-encode of the
original input when that re-encode succeeds and the original input when it
fails; the result is not in general bounded by the first tier's output (see
c7_counterexample) and inherits non-emptiness only from the codec. -/
theorem c7_budget_miss_result (reenc : ByteSeq → Nat → Option ByteSeq)
    (budget : Nat) (input : ByteSeq)
    (hover : budget < input.length)
    (hmiss : ∀ q ∈ QUALITY_PASSES, ∀ c, reenc input q = some c →
      budget < c.length) :
    compressPdf reenc budget input =
      match reenc input 20 with
      | some r => r
      | none => input := by
  unfold compressPdf
  rw [if_neg (Nat.not_le.mpr hover),
    compressLoop_none_of_miss reenc budget input QUALITY_PASSES hmiss]
  rfl

/-- C7 witness: the amended statement at the counterexample's codec. -/
theorem c7_witness :
    compressPdf c7Reenc 10 exInput11 =
      match c7Reenc exInput11 20 with
      | some r => r
      | none => exInput11 :=
  c7_budget_miss_result c7Reenc 10 exInput11 (by decide)
    (by
      intro q hq c h
      fin_cases hq <;> simp [c7Reenc] at h <;> subst h <;> decide)

/-- C10: in the Ghostscript-backed compressPdf the tiers chain
cumulatively: a successful over-budget pass hands its own output to the
next tier, while a failed pass hands the unchanged working buffer on;
consequently the compressor applied to the prepend-a-byte stub is not
idempotent. -/
theorem c10_cumulative_chaining (gs : String → Nat → ByteSeq → Option ByteSeq)
    (budget : Nat) (buf r : ByteSeq) (p : GsPass) (ps : List GsPass) :
    (gs p.resolution p.imageQuality buf = some r → budget < r.length →
      gsLoop gs budget (p :: ps) buf = gsLoop gs budget ps r) ∧
    (gs p.resolution p.imageQuality buf = none →
      gsLoop gs budget (p :: ps) buf = gsLoop gs budget ps buf) ∧
    gsCompressPdf c10Gs 0 [1] = [0, 0, 0, 0, 0, 1] ∧
    gsCompressPdf c10Gs 0 (gsCompressPdf c10Gs 0 [1]) ≠
      gsCompressPdf c10Gs 0 [1] := by
  refine ⟨?_, ?_, by decide, by decide⟩
  · intro hgs hbig
    simp only [gsLoop, hgs]
    rw [if_neg (Nat.not_le.mpr hbig)]
  · intro hgs
    simp only [gsLoop, hgs]

/-- C10 witness: one chaining step and one failure step at concrete
arguments, plus the closed non-idempotence facts. -/
theorem c10_witness :
    (c10Gs "ebook" 80 [1] = some [0, 1] → 0 < ([0, 1] : ByteSeq).length →
      gsLoop c10Gs 0 [⟨"ebook", 80⟩] [1] = gsLoop c10Gs 0 [] [0, 1]) ∧
    (c10Gs "ebook" 80 [1] = none →
      gsLoop c10Gs 0 [⟨"ebook", 80⟩] [1] = gsLoop c10Gs 0 [] [1]) ∧
    gsCompressPdf c10Gs 0 [1] = [0, 0, 0, 0, 0, 1] ∧
    gsCompressPdf c10Gs 0 (gsCompressPdf c10Gs 0 [1]) ≠
      gsCompressPdf c10Gs 0 [1] :=
  c10_cumulative_chaining c10Gs 0 [1] [0, 1] ⟨"ebook", 80⟩ []

/-- Unfolding a startsWith check one character. -/
theorem isPrefixB_cons_iff (a : Char) (as l : List Char) :
    isPrefixB (a :: as) l = true ↔ ∃ t, l = a :: t ∧ isPrefixB as t = true := by
  cases l with
  | nil => simp [isPrefixB]
  | cons b bs =>
    simp only [isPrefixB, Bool.and_eq_true, decide_eq_true_eq]
    constructor
    · rintro ⟨rfl, hp⟩
      exact ⟨bs, rfl, hp⟩
    · rintro ⟨t, ht, hp⟩
      cases ht
      exact ⟨rfl, hp⟩

/-- A name that ends in ".pdf" case-insensitively ends in a letter whose
lowercasing is f. -/
theorem pdf_last_char {l : List Char}
    (h : isSuffixB ".pdf".toList (l.map Char.toLower) = true) :
    ∃ c t, l.reverse = c :: t ∧ Char.toLower c = 'f' := by
  unfold isSuffixB at h
  rw [show (".pdf".toList).reverse = ['f', 'd', 'p', '.'] from rfl] at h
  rw [← List.map_reverse] at h
  rcases (isPrefixB_cons_iff _ _ _).mp h with ⟨t, ht, _⟩
  cases hl : l.reverse with
  | nil => rw [hl] at ht; cases ht
  | cons c t2 =>
    rw [hl] at ht
    simp only [List.map_cons, List.cons.injEq] at ht
    exact ⟨c, t2, rfl, ht.1⟩

/-- A character lowercasing to f is not a slash. -/
theorem toLower_f_ne_slash {c : Char} (h : Char.toLower c = 'f') : c ≠ '/' := by
  intro hc
  subst hc
  exact absurd h (by decide)

/-- When the name does not end in a slash, the final segment is nonempty,
a suffix of the name, and slash-free. -/
theorem lastSeg_spec {l : List Char} {c : Char} {t : List Char}
    (hl : l.reverse = c :: t) (hc : c ≠ '/') :
    lastSeg l ≠ [] ∧ lastSeg l <:+ l ∧ '/' ∉ lastSeg l := by
  refine ⟨?_, ?_, ?_⟩
  · unfold lastSeg
    rw [hl, List.takeWhile_cons, if_pos (by simpa using hc)]
    simp
  · unfold lastSeg
    have htw := List.takeWhile_prefix (l := l.reverse) (fun x => decide (x ≠ '/'))
    have h2 := List.reverse_suffix.mpr htw
    rwa [List.reverse_reverse] at h2
  · intro hm
    unfold lastSeg at hm
    rw [List.mem_reverse] at hm
    have := List.mem_takeWhile_imp hm
    simp at this

/-- For a kept entry the emitted name is the slash-free final path segment
of the archive path. -/
theorem entryOutName_pdf (s : String)
    (h : isSuffixB ".pdf".toList (s.toList.map Char.toLower) = true) :
    (entryOutName s).toList = lastSeg s.toList ∧
    (entryOutName s).toList <:+ s.toList ∧ '/' ∉ (entryOutName s).toList := by
  rcases pdf_last_char h with ⟨c, t, hl, hf⟩
  rcases lastSeg_spec hl (toLower_f_ne_slash hf) with ⟨hne, hsuf, hns⟩
  have hE : (entryOutName s).toList = lastSeg s.toList := by
    unfold entryOutName
    rw [if_neg (by simpa [List.isEmpty_iff] using hne)]
    rfl
  refine ⟨hE, ?_, ?_⟩
  · rw [hE]; exact hsuf
  · rw [hE]; exact hns

/-- The filter of extractPdfsFromZip, split into its four conditions. -/
theorem keepEntry_iff (e : ZipEntry) :
    keepEntry e = true ↔
      e.isDirectory = false ∧
      isPrefixB "__MACOSX".toList e.entryName.toList = false ∧
      isPrefixB ".".toList e.entryName.toList = false ∧
      isSuffixB ".pdf".toList (e.entryName.toList.map Char.toLower) = true := by
  simp [keepEntry, Bool.and_eq_true, Bool.not_eq_true', and_assoc]

/-- C4: extractPdfsFromZip excludes directory entries, resource-fork and
hidden-marker paths and non-.pdf names (case-insensitively); every returned
record originates from a surviving entry, carries its bytes, and is named by
the slash-free final path segment of the entry's archive path; conversely
every surviving entry appears in the output under that name. -/
theorem c4_filtering_and_naming (entries : List ZipEntry) :
    (∀ item ∈ extractPdfsFromZip entries,
      ∃ e ∈ entries,
        e.isDirectory = false ∧
        isPrefixB "__MACOSX".toList e.entryName.toList = false ∧
        isPrefixB ".".toList e.entryName.toList = false ∧
        isSuffixB ".pdf".toList (e.entryName.toList.map Char.toLower) = true ∧
        item.buffer = e.data ∧
        item.name = entryOutName e.entryName ∧
        item.name.toList <:+ e.entryName.toList ∧
        '/' ∉ item.name.toList) ∧
    (∀ e ∈ entries, keepEntry e = true →
      ∃ item ∈ extractPdfsFromZip entries,
        item.name = entryOutName e.entryName ∧ item.buffer = e.data) := by
  constructor
  · intro item hitem
    unfold extractPdfsFromZip at hitem
    rw [List.mem_insertionSort] at hitem
    rcases List.mem_map.mp hitem with ⟨e, he, heq⟩
    rcases List.mem_filter.mp he with ⟨heMem, hkeep⟩
    rcases (keepEntry_iff e).mp hkeep with ⟨h1, h2, h3, h4⟩
    rcases entryOutName_pdf e.entryName h4 with ⟨_, hsuf, hns⟩
    subst heq
    exact ⟨e, heMem, h1, h2, h3, h4, rfl, rfl, hsuf, hns⟩
  · intro e heMem hkeep
    refine ⟨⟨entryOutName e.entryName, e.data⟩, ?_, rfl, rfl⟩
    unfold extractPdfsFromZip
    rw [List.mem_insertionSort]
    exact List.mem_map.mpr ⟨e, List.mem_filter.mpr ⟨heMem, hkeep⟩, rfl⟩

/-- C4 witness: among five archive entries only the nested PDF survives,
named by its final path segment. -/
theorem c4_witness :
    ∃ item ∈ extractPdfsFromZip c4Entries,
      item.name = entryOutName "docs/Nested.PDF" ∧ item.buffer = [4] :=
  (c4_filtering_and_naming c4Entries).2 ⟨"docs/Nested.PDF", false, [4]⟩
    (by decide) (by decide)

/-- C5: the output of extractPdfsFromZip is ascending in the
case-insensitive numeric-aware name order, and the archive members
page2.pdf, page10.pdf, page1.pdf extract in the order page1, page2,
page10. -/
theorem c5_numeric_name_order (entries : List ZipEntry) :
    List.Sorted extLe (extractPdfsFromZip entries) ∧
    extractPdfsFromZip c5Entries =
      [⟨"page1.pdf", [1]⟩, ⟨"page2.pdf", [2]⟩, ⟨"page10.pdf", [10]⟩] := by
  constructor
  · exact List.sorted_insertionSort extLe _
  · decide

/-- C5 witness: the sortedness and the numeric example at the example
archive itself. -/
theorem c5_witness :
    List.Sorted extLe (extractPdfsFromZip c5Entries) ∧
    extractPdfsFromZip c5Entries =
      [⟨"page1.pdf", [1]⟩, ⟨"page2.pdf", [2]⟩, ⟨"page10.pdf", [10]⟩] :=
  c5_numeric_name_order c5Entries

/-- The walk on a DCT-encoded image reduces to the compare-and-replace step
on the jpeg re-encoding. -/
theorem processStream_dct_eq (jpegEnc : ByteSeq → Nat → Option ByteSeq)
    (rawEnc : ByteSeq → Nat → Nat → Nat → Nat → Option ByteSeq)
    (q : Nat) (s : PdfStream) (w h : Nat)
    (himg : s.subtype = some "Image")
    (hw : s.width = some w) (hh : s.height = some h)
    (h2w : 2 ≤ w) (h2h : 2 ≤ h)
    (hdct : hasSub "DCTDecode".toList ((s.filter).getD "").toList = true) :
    processStream jpegEnc rawEnc q s =
      match jpegEnc s.data q with
      | none => s
      | some c => if c.length < s.data.length then { s with data := c } else s := by
  have hne : ¬(w < 2 ∨ h < 2) := by omega
  have hdct2 : hasSub ['D', 'C', 'T', 'D', 'e', 'c', 'o', 'd', 'e']
      ((s.filter).getD "").data = true := hdct
  simp [processStream, himg, hw, hh, hne, hdct2]

/-- The walk on a non-DCT image with decodable payload reduces to the
bpc/geometry checks and the raw-to-jpeg conversion step. -/
theorem processStream_raw_eq (jpegEnc : ByteSeq → Nat → Option ByteSeq)
    (rawEnc : ByteSeq → Nat → Nat → Nat → Nat → Option ByteSeq)
    (q : Nat) (s : PdfStream) (w h : Nat) (d : ByteSeq)
    (himg : s.subtype = some "Image")
    (hw : s.width = some w) (hh : s.height = some h)
    (h2w : 2 ≤ w) (h2h : 2 ≤ h)
    (hdct : hasSub "DCTDecode".toList ((s.filter).getD "").toList = false)
    (hdec : s.decoded = some d) :
    processStream jpegEnc rawEnc q s =
      (if d.length = 0 then s
       else if (s.bpc).getD 8 ≠ 8 then s
       else if d.length < w * h * channelsOf ((s.colorSpace).getD "") then s
       else
         match rawEnc d w h (channelsOf ((s.colorSpace).getD "")) q with
         | none => s
         | some c =>
           if c.length < d.length then
             { s with data := c, filter := some "DCTDecode",
                      hasDecodeParms := false }
           else s) := by
  have hne : ¬(w < 2 ∨ h < 2) := by omega
  have hdct2 : hasSub ['D', 'C', 'T', 'D', 'e', 'c', 'o', 'd', 'e']
      ((s.filter).getD "").data = false := hdct
  simp [processStream, himg, hw, hh, hne, hdct2, hdec]

/-- C8: within one re-encoding pass, an image whose jpeg decode/re-encode
throws, an image with no decodable payload, an image whose raw re-encode
throws, and a raw image whose decoded byte length is below
width*height*channels are all left byte-for-byte unmodified, and the walk
over the registry processes every other object regardless. -/
theorem c8_bad_image_tolerance (jpegEnc : ByteSeq → Nat → Option ByteSeq)
    (rawEnc : ByteSeq → Nat → Nat → Nat → Nat → Option ByteSeq)
    (q : Nat) (s : PdfStream) (w h : Nat)
    (himg : s.subtype = some "Image")
    (hw : s.width = some w) (hh : s.height = some h)
    (h2w : 2 ≤ w) (h2h : 2 ≤ h) :
    (hasSub "DCTDecode".toList ((s.filter).getD "").toList = true →
      jpegEnc s.data q = none →
      processStream jpegEnc rawEnc q s = s) ∧
    (hasSub "DCTDecode".toList ((s.filter).getD "").toList = false →
      (s.decoded = none → processStream jpegEnc rawEnc q s = s) ∧
      (∀ d, s.decoded = some d →
        (d.length < w * h * channelsOf ((s.colorSpace).getD "") →
          processStream jpegEnc rawEnc q s = s) ∧
        (rawEnc d w h (channelsOf ((s.colorSpace).getD "")) q = none →
          processStream jpegEnc rawEnc q s = s))) ∧
    (∀ (pre post : List PdfObject) (o : PdfObject),
      reencodeImages jpegEnc rawEnc q (pre ++ o :: post) =
        reencodeImages jpegEnc rawEnc q pre ++
          processObj jpegEnc rawEnc q o :: reencodeImages jpegEnc rawEnc q post) := by
  have hne : ¬(w < 2 ∨ h < 2) := by omega
  refine ⟨?_, ?_, ?_⟩
  · intro hdct henc
    rw [processStream_dct_eq jpegEnc rawEnc q s w h himg hw hh h2w h2h hdct,
      henc]
  · intro hdct
    constructor
    · intro hdec
      have hdct2 : hasSub ['D', 'C', 'T', 'D', 'e', 'c', 'o', 'd', 'e']
          ((s.filter).getD "").data = false := hdct
      simp [processStream, himg, hw, hh, hne, hdct2, hdec]
    · intro d hdec
      rw [processStream_raw_eq jpegEnc rawEnc q s w h d himg hw hh h2w h2h
        hdct hdec]
      constructor
      · intro hlen
        rcases Nat.eq_zero_or_pos d.length with h0 | h0
        · rw [if_pos h0]
        · rw [if_neg (by omega)]
          by_cases hb : (s.bpc).getD 8 ≠ 8
          · rw [if_pos hb]
          · rw [if_neg hb, if_pos hlen]
      · intro hraw
        rcases Nat.eq_zero_or_pos d.length with h0 | h0
        · rw [if_pos h0]
        · rw [if_neg (by omega)]
          by_cases hb : (s.bpc).getD 8 ≠ 8
          · rw [if_pos hb]
          · rw [if_neg hb]
            by_cases hg : d.length < w * h * channelsOf ((s.colorSpace).getD "")
            · rw [if_pos hg]
            · rw [if_neg hg, hraw]
  · intro pre post o
    simp [reencodeImages]

/-- C8 witness: a DCT image whose jpeg re-encode throws is returned
unchanged. -/
theorem c8_witness :
    processStream (fun _ _ => none) (fun _ _ _ _ _ => none) 50 imgStreamEx =
      imgStreamEx :=
  (c8_bad_image_tolerance (fun _ _ => none) (fun _ _ _ _ _ => none) 50
      imgStreamEx 4 4 rfl rfl rfl (by decide) (by decide)).1 (by decide) rfl

/-- C9: for an already DCT-encoded image the pass replaces the stream's
bytes with the re-encoding exactly when it is strictly smaller than the
stored bytes and leaves the stream untouched otherwise, so the stored byte
size never increases. -/
theorem c9_dct_replace_only_smaller (jpegEnc : ByteSeq → Nat → Option ByteSeq)
    (rawEnc : ByteSeq → Nat → Nat → Nat → Nat → Option ByteSeq)
    (q : Nat) (s : PdfStream) (w h : Nat)
    (himg : s.subtype = some "Image")
    (hw : s.width = some w) (hh : s.height = some h)
    (h2w : 2 ≤ w) (h2h : 2 ≤ h)
    (hdct : hasSub "DCTDecode".toList ((s.filter).getD "").toList = true) :
    (processStream jpegEnc rawEnc q s).data.length ≤ s.data.length ∧
    ∀ c, jpegEnc s.data q = some c →
      (c.length < s.data.length →
        processStream jpegEnc rawEnc q s = { s with data := c }) ∧
      (s.data.length ≤ c.length →
        processStream jpegEnc rawEnc q s = s) := by
  have heq := processStream_dct_eq jpegEnc rawEnc q s w h himg hw hh h2w h2h hdct
  constructor
  · rw [heq]
    cases henc : jpegEnc s.data q with
    | none => exact Nat.le_refl _
    | some c =>
      dsimp only
      by_cases hlt : c.length < s.data.length
      · rw [if_pos hlt]
        exact Nat.le_of_lt hlt
      · rw [if_neg hlt]
  · intro c henc
    rw [heq, henc]
    constructor
    · intro hlt
      dsimp only
      rw [if_pos hlt]
    · intro hge
      dsimp only
      rw [if_neg (Nat.not_lt.mpr hge)]

/-- C9 witness: a 1-byte re-encoding replaces the 3 stored bytes; the
replacement is the re-encoded stream. -/
theorem c9_witness :
    processStream (fun _ _ => some [5]) (fun _ _ _ _ _ => none) 70 imgStreamEx =
      { imgStreamEx with data := [5] } :=
  ((c9_dct_replace_only_smaller (fun _ _ => some [5]) (fun _ _ _ _ _ => none)
      70 imgStreamEx 4 4 rfl rfl rfl (by decide) (by decide) (by decide)).2
    [5] rfl).1 (by decide)
